import Mathlib

/-!
Shallow embedding of the page-mutation state machine of `src/App.tsx`, the
React component of a browser-based PDF editor.

Modelling conventions:
- React `useState` variables become fields of an explicit `AppState` record;
  each `setX(v)` call becomes a field update applied in program order.
- Every event handler of `App.tsx` becomes a pure function from the pre-state
  (plus operation parameters) to the post-state.
- The external PDF engine (`src/utils/pdfUtils.ts`, not part of the provided
  source) is passed in as an `Engine` record of `Option`-returning functions:
  `none` models a rejected promise, `some v` a promise resolving to `v`.
- `alert(...)` calls, triggered file downloads, and engine invocations are
  recorded in ghost trace fields (`alerts`, `downloads`, `calls`) of the
  state, so that properties such as "a notification was surfaced", "the
  engine was not invoked", and "the in-flight flag was set at call time" are
  statable as facts about the resulting state.  Each engine-call record
  stores the `loading` flag and `loadingText` current at the invocation.
- `handleDeletePage` is factored into its atomic segments between `await`
  points (`stepTask`), so that the interleaving of two concurrently fired
  delete operations can be analysed by running an explicit schedule.
-/

/-- A PDF byte buffer (`Uint8Array` in the source).  For the spec-modelled
engine a document is represented by its ordered list of page identifiers. -/
abbrev Bytes := List Nat

/-- Modelled from the spec: `src/types.ts` is not part of the provided
source.  Metadata is "a small record of document-level descriptive fields
(title, author, etc.)" (spec section 3). -/
structure PdfMetadata where
  title : Option String
  author : Option String
deriving DecidableEq, Repr

/-- Modelled from the spec: `src/types.ts` is not part of the provided
source.  Parameter record for a per-page visual filter; pure input data. -/
structure PageFilter where
  brightness : Int
  contrast : Int
deriving DecidableEq, Repr

/-- Modelled from the spec: `src/types.ts` is not part of the provided
source.  Border styling parameters; pure input data. -/
structure BorderConfig where
  width : Int
  color : String
deriving DecidableEq, Repr

/-- Modelled from the spec: `src/types.ts` is not part of the provided
source.  Text-overlay placement and content parameters; pure input data. -/
structure TextConfig where
  text : String
  x : Int
  y : Int
deriving DecidableEq, Repr

/-- One invocation of an external engine function, with its arguments, as it
appears in `src/App.tsx`. -/
inductive EngineCall where
  | getPdfDetails (bytes : Bytes)
  | mergePdfs (a b : Bytes)
  | movePage (bytes : Bytes) (src dst : Int)
  | removePage (bytes : Bytes) (index : Int)
  | getMetadata (bytes : Bytes)
  | updateMetadata (bytes : Bytes) (meta : PdfMetadata)
  | applyFiltersToPage (bytes : Bytes) (index : Int) (filters : PageFilter) (border : BorderConfig)
  | addTextToPage (bytes : Bytes) (index : Int) (config : TextConfig)
deriving DecidableEq, Repr

/-- Ghost record of one engine invocation together with the busy flag and
status text current at the moment of the call. -/
structure CallRecord where
  call : EngineCall
  loadingAtCall : Bool
  loadingTextAtCall : String
deriving DecidableEq, Repr

/-- The view state of `App` (`src/App.tsx`, lines 23-33), extended with the
ghost trace fields `alerts`, `downloads` and `calls`. -/
structure AppState where
  pdfBytes : Option Bytes
  fileName : String
  pages : List String
  loading : Bool
  loadingText : String
  metadataModalOpen : Bool
  editorModalOpen : Bool
  currentMetadata : Option PdfMetadata
  selectedPageIndex : Option Int
  alerts : List String
  downloads : List (String × Bytes)
  calls : List CallRecord
deriving DecidableEq, Repr

/-- The initial state produced by the `useState` initialisers of `App`. -/
def initState : AppState where
  pdfBytes := none
  fileName := ""
  pages := []
  loading := false
  loadingText := ""
  metadataModalOpen := false
  editorModalOpen := false
  currentMetadata := none
  selectedPageIndex := none
  alerts := []
  downloads := []
  calls := []

/-- Record an engine invocation in the ghost trace, capturing the busy flag
and status text current at the call. -/
def logCall (s : AppState) (c : EngineCall) : AppState :=
  { s with calls := s.calls ++ [⟨c, s.loading, s.loadingText⟩] }

/-- The asynchronous external PDF engine (`src/utils/pdfUtils.ts`), seen
through the results of its calls: `none` models a rejected promise.
`getPdfDetails` returns the list of thumbnail data-URLs, one per page in
page order (spec section 4.2). -/
structure Engine where
  getPdfDetails : Bytes → Option (List String)
  mergePdfs : Bytes → Bytes → Option Bytes
  movePage : Bytes → Int → Int → Option Bytes
  removePage : Bytes → Int → Option Bytes
  getMetadata : Bytes → Option PdfMetadata
  updateMetadata : Bytes → PdfMetadata → Option Bytes
  applyFiltersToPage : Bytes → Int → PageFilter → BorderConfig → Option Bytes
  addTextToPage : Bytes → Int → TextConfig → Option Bytes

/-- `loadPdf` (`src/App.tsx` lines 36-49): set the busy flag and status
text, install the new bytes as current document, then await thumbnail
generation; on success install the thumbnails, on failure alert
"Error loading PDF"; finally clear the busy flag.  Note that the bytes are
installed before the thumbnail await, so a thumbnail failure leaves the new
bytes in place with the old thumbnails. -/
def loadPdf (E : Engine) (s : AppState) (bytes : Bytes) : AppState :=
  let s1 := logCall
    { s with loading := true, loadingText := "Processing PDF...", pdfBytes := some bytes }
    (.getPdfDetails bytes)
  match E.getPdfDetails bytes with
  | some thumbnails => { s1 with pages := thumbnails, loading := false }
  | none => { s1 with alerts := s1.alerts ++ ["Error loading PDF"], loading := false }

/-- `handleMerge` (`src/App.tsx` lines 66-80).  `fileRead` is the outcome of
`file.arrayBuffer()` (`none` models a read failure). -/
def handleMerge (E : Engine) (s : AppState) (fileRead : Option Bytes) : AppState :=
  match s.pdfBytes with
  | none => s
  | some b =>
    let s1 := { s with loading := true, loadingText := "Merging PDFs..." }
    match fileRead with
    | none => { s1 with alerts := s1.alerts ++ ["Failed to merge PDF"], loading := false }
    | some mergeBytes =>
      let s2 := logCall s1 (.mergePdfs b mergeBytes)
      match E.mergePdfs b mergeBytes with
      | some newBytes => loadPdf E s2 newBytes
      | none => { s2 with alerts := s2.alerts ++ ["Failed to merge PDF"], loading := false }

/-- `handleMovePage` (`src/App.tsx` lines 82-96): guard on a missing
document, then on the destination bound `to < 0 || to >= pages.length`
(both return without touching any state); otherwise set the busy flag and
status, call the engine, on success reload; failures are only logged
(`console.error`), and `finally` clears the busy flag. -/
def handleMovePage (E : Engine) (s : AppState) (src dst : Int) : AppState :=
  match s.pdfBytes with
  | none => s
  | some b =>
    if dst < 0 ∨ (s.pages.length : Int) ≤ dst then s
    else
      let s1 := logCall { s with loading := true, loadingText := "Reordering..." }
        (.movePage b src dst)
      match E.movePage b src dst with
      | some newBytes =>
        let s2 := loadPdf E s1 newBytes
        { s2 with loading := false }
      | none => { s1 with loading := false }

/-- The resumable phases of one `handleDeletePage` task
(`src/App.tsx` lines 98-110), cut at its two `await` points: before the
`removePage` call, suspended on `removePage`, and suspended on
`getPdfDetails` inside the nested `loadPdf`. -/
inductive DeletePhase where
  | ready (index : Int)
  | awaitingRemove (snapshot : Bytes) (index : Int)
  | awaitingDetails (newBytes : Bytes)
  | done
deriving DecidableEq, Repr

/-- One atomic segment of a `handleDeletePage` task: the synchronous code
run between two suspension points, against the current shared state. -/
def stepTask (E : Engine) (s : AppState) : DeletePhase → AppState × DeletePhase
  | .ready index =>
    match s.pdfBytes with
    | none => (s, .done)
    | some b =>
      (logCall { s with loading := true, loadingText := "Deleting page..." }
        (.removePage b index),
       .awaitingRemove b index)
  | .awaitingRemove snapshot index =>
    match E.removePage snapshot index with
    | none => ({ s with loading := false }, .done)
    | some newBytes =>
      (logCall
        { s with loading := true, loadingText := "Processing PDF...", pdfBytes := some newBytes }
        (.getPdfDetails newBytes),
       .awaitingDetails newBytes)
  | .awaitingDetails newBytes =>
    match E.getPdfDetails newBytes with
    | none => ({ s with alerts := s.alerts ++ ["Error loading PDF"], loading := false }, .done)
    | some thumbnails => ({ s with pages := thumbnails, loading := false }, .done)
  | .done => (s, .done)

/-- Shared state of two concurrently fired delete tasks: the single
application state plus the phase of each task. -/
structure RaceState where
  app : AppState
  t1 : DeletePhase
  t2 : DeletePhase

/-- Run an interleaving of two delete tasks on the shared state: `true`
steps task 1, `false` steps task 2 (single-threaded cooperative scheduling,
spec section 5). -/
def runSchedule (E : Engine) : List Bool → RaceState → RaceState
  | [], r => r
  | true :: rest, r =>
    runSchedule E rest
      ⟨(stepTask E r.app r.t1).1, (stepTask E r.app r.t1).2, r.t2⟩
  | false :: rest, r =>
    runSchedule E rest
      ⟨(stepTask E r.app r.t2).1, r.t1, (stepTask E r.app r.t2).2⟩

/-- `handleDeletePage` (`src/App.tsx` lines 98-110), run to completion with
no interference: its three atomic segments executed in order. -/
def handleDeletePage (E : Engine) (s : AppState) (index : Int) : AppState :=
  (runSchedule E [true, true, true] ⟨s, .ready index, .done⟩).app

/-- `handleSave` (`src/App.tsx` lines 112-121): hand the current bytes to
the host as a download named `edited_<fileName>`; no state change beyond
the ghost download trace. -/
def handleSave (s : AppState) : AppState :=
  match s.pdfBytes with
  | none => s
  | some b => { s with downloads := s.downloads ++ [("edited_" ++ s.fileName, b)] }

/-- `openMetadata` (`src/App.tsx` lines 123-128): fetch the metadata of the
current document and open the metadata modal.  There is no `try`/`catch`
here; a rejected `getMetadata` leaves the state (beyond the call trace)
unchanged. -/
def openMetadata (E : Engine) (s : AppState) : AppState :=
  match s.pdfBytes with
  | none => s
  | some b =>
    let s1 := logCall s (.getMetadata b)
    match E.getMetadata b with
    | some meta => { s1 with currentMetadata := some meta, metadataModalOpen := true }
    | none => s1

/-- `saveMetadata` (`src/App.tsx` lines 130-143): close the modal, set the
busy flag (note: no status text is set), call `updateMetadata`; on success
install the new bytes without recomputing thumbnails; on failure alert
"Failed to save metadata"; finally clear the busy flag. -/
def saveMetadata (E : Engine) (s : AppState) (newMeta : PdfMetadata) : AppState :=
  match s.pdfBytes with
  | none => s
  | some b =>
    let s1 := { s with metadataModalOpen := false, loading := true }
    let s2 := logCall s1 (.updateMetadata b newMeta)
    match E.updateMetadata b newMeta with
    | some newBytes => { s2 with pdfBytes := some newBytes, loading := false }
    | none => { s2 with alerts := s2.alerts ++ ["Failed to save metadata"], loading := false }

/-- `openEditor` (`src/App.tsx` lines 145-148): select a page and open the
page-editor modal. -/
def openEditor (s : AppState) (index : Int) : AppState :=
  { s with selectedPageIndex := some index, editorModalOpen := true }

/-- `handleApplyFilters` (`src/App.tsx` lines 150-162): guard on a missing
document or missing selection, then set the busy flag and status, call the
engine at the selected page index, reload on success, alert
"Failed to apply changes" and clear the flag on failure. -/
def handleApplyFilters (E : Engine) (s : AppState) (filters : PageFilter)
    (border : BorderConfig) : AppState :=
  match s.pdfBytes, s.selectedPageIndex with
  | some b, some idx =>
    let s1 := logCall { s with loading := true, loadingText := "Applying edits..." }
      (.applyFiltersToPage b idx filters border)
    match E.applyFiltersToPage b idx filters border with
    | some newBytes => loadPdf E s1 newBytes
    | none => { s1 with alerts := s1.alerts ++ ["Failed to apply changes"], loading := false }
  | _, _ => s

/-- `handleAddText` (`src/App.tsx` lines 164-176): same shape as
`handleApplyFilters` with the `addTextToPage` engine call and the alert
"Failed to add text". -/
def handleAddText (E : Engine) (s : AppState) (config : TextConfig) : AppState :=
  match s.pdfBytes, s.selectedPageIndex with
  | some b, some idx =>
    let s1 := logCall { s with loading := true, loadingText := "Adding text..." }
      (.addTextToPage b idx config)
    match E.addTextToPage b idx config with
    | some newBytes => loadPdf E s1 newBytes
    | none => { s1 with alerts := s1.alerts ++ ["Failed to add text"], loading := false }
  | _, _ => s

/-- Modelled from the spec: insertion of a page at a destination index with
the remaining pages "shifted contiguously" (spec section 4.3); the engine
source `src/utils/pdfUtils.ts` is not provided. -/
def insertAt : List Nat → Nat → Nat → List Nat
  | l, 0, x => x :: l
  | [], _ + 1, x => [x]
  | a :: t, n + 1, x => a :: insertAt t n x

/-- Modelled from the spec: the engine `movePage` produces "a new Document
with page moved to destination, other pages shifted contiguously"
(spec section 4.3); `src/utils/pdfUtils.ts` is not provided.  An
out-of-range source page is a rejected call. -/
def movePageModel (doc : Bytes) (src dst : Int) : Option Bytes :=
  if h : 0 ≤ src ∧ src.toNat < doc.length then
    some (insertAt (doc.eraseIdx src.toNat) dst.toNat (doc.get ⟨src.toNat, h.2⟩))
  else none

/-- Modelled from the spec: the engine `removePage` produces "a new Document
with page removed, following pages re-indexed down by one"
(spec section 4.3); `src/utils/pdfUtils.ts` is not provided. -/
def removePageModel (doc : Bytes) (index : Int) : Option Bytes :=
  if 0 ≤ index ∧ index.toNat < doc.length then some (doc.eraseIdx index.toNat) else none

/-- Modelled from the spec: thumbnail projection produces "exactly one
thumbnail per page, in page order" (spec section 4.2);
`src/utils/pdfUtils.ts` is not provided. -/
def getPdfDetailsModel (doc : Bytes) : Option (List String) :=
  some (doc.map (fun p => toString p))

/-- Modelled from the spec: an engine instance over page-list documents,
realising the operation contracts of spec section 4.3. -/
def listEngine : Engine where
  getPdfDetails := getPdfDetailsModel
  mergePdfs := fun a b => some (a ++ b)
  movePage := movePageModel
  removePage := removePageModel
  getMetadata := fun _ => some ⟨none, none⟩
  updateMetadata := fun b _ => some b
  applyFiltersToPage := fun b i _ _ =>
    if 0 ≤ i ∧ i.toNat < b.length then some b else none
  addTextToPage := fun b i _ =>
    if 0 ≤ i ∧ i.toNat < b.length then some b else none

/-- An engine all of whose calls fail (every promise rejects). -/
def failEngine : Engine where
  getPdfDetails := fun _ => none
  mergePdfs := fun _ _ => none
  movePage := fun _ _ _ => none
  removePage := fun _ _ => none
  getMetadata := fun _ => none
  updateMetadata := fun _ _ => none
  applyFiltersToPage := fun _ _ _ _ => none
  addTextToPage := fun _ _ _ => none

/-- Thumbnail consistency: the stored thumbnail sequence is exactly the
projection of the current document through the engine. -/
def consistent (E : Engine) (s : AppState) : Prop :=
  ∀ b, s.pdfBytes = some b → E.getPdfDetails b = some s.pages

/-- C4: for every loaded Document, a reorder whose destination lies outside
the page range is a complete no-op: the state (document, thumbnails, busy
flag, alert and engine-call traces) is returned unchanged, because
`handleMovePage` returns before setting the flag or calling the engine.
The page count of the current document is reflected by `s.pages.length`,
the thumbnail count (one thumbnail per page, spec section 4.2). -/
theorem c4_out_of_range_reorder_noop (E : Engine) (s : AppState) (b : Bytes)
    (src dst : Int) (hdoc : s.pdfBytes = some b)
    (hout : dst < 0 ∨ (s.pages.length : Int) ≤ dst) :
    handleMovePage E s src dst = s := by
  unfold handleMovePage
  rw [hdoc]
  simp [hout]

/-- Witness for C4 at a concrete input: a loaded two-page document and the
out-of-range destination 2. -/
theorem c4_out_of_range_reorder_noop_witness :
    ({ initState with pdfBytes := some [7, 8], pages := ["7", "8"] } : AppState).pdfBytes
        = some [7, 8]
    ∧ ((2 : Int) < 0 ∨ (({ initState with pdfBytes := some [7, 8], pages := ["7", "8"] }
          : AppState).pages.length : Int) ≤ 2)
    ∧ handleMovePage listEngine
        { initState with pdfBytes := some [7, 8], pages := ["7", "8"] } 0 2
      = { initState with pdfBytes := some [7, 8], pages := ["7", "8"] } := by
  refine ⟨rfl, by decide, ?_⟩
  exact c4_out_of_range_reorder_noop listEngine _ [7, 8] 0 2 rfl (by decide)

/-- C7: merge, reorder, delete, export, get-metadata, set-metadata,
apply-filters and add-text all guard on the absence of a current document
and return before touching any state, calling the engine, or setting the
busy flag: with `pdfBytes = none` each handler returns the state unchanged
(the ghost alert, download and engine-call traces included). -/
theorem c7_missing_document_noop (E : Engine) (s : AppState)
    (h : s.pdfBytes = none) :
    (∀ fr, handleMerge E s fr = s) ∧
    (∀ src dst, handleMovePage E s src dst = s) ∧
    (∀ i, handleDeletePage E s i = s) ∧
    handleSave s = s ∧
    openMetadata E s = s ∧
    (∀ m, saveMetadata E s m = s) ∧
    (∀ f bc, handleApplyFilters E s f bc = s) ∧
    (∀ tc, handleAddText E s tc = s) := by
  refine ⟨?_, ?_, ?_, ?_, ?_, ?_, ?_, ?_⟩
  · intro fr; unfold handleMerge; rw [h]
  · intro src dst; unfold handleMovePage; rw [h]
  · intro i
    unfold handleDeletePage runSchedule stepTask
    rw [h]
    simp [runSchedule, stepTask]
  · unfold handleSave; rw [h]
  · unfold openMetadata; rw [h]
  · intro m; unfold saveMetadata; rw [h]
  · intro f bc; unfold handleApplyFilters; rw [h]
  · intro tc; unfold handleAddText; rw [h]

/-- Witness for C7 at the concrete initial state (no document loaded). -/
theorem c7_missing_document_noop_witness :
    initState.pdfBytes = none
    ∧ handleMerge listEngine initState (some [1]) = initState
    ∧ handleMovePage listEngine initState 0 0 = initState
    ∧ handleDeletePage listEngine initState 0 = initState
    ∧ handleSave initState = initState
    ∧ saveMetadata listEngine initState ⟨some "t", none⟩ = initState := by
  have h := c7_missing_document_noop listEngine initState rfl
  exact ⟨rfl, h.1 (some [1]), h.2.1 0 0, h.2.2.1 0, h.2.2.2.1, h.2.2.2.2.2.1 ⟨some "t", none⟩⟩

/-- C8: with a document loaded, export hands the current bytes to the host
as a download named `edited_<fileName>` and changes nothing else: document,
thumbnails, file name, busy flag, status text, selection, alerts and
engine-call trace are exactly as before. -/
theorem c8_export_download_no_state_change (s : AppState) (b : Bytes)
    (hdoc : s.pdfBytes = some b) :
    (handleSave s).downloads = s.downloads ++ [("edited_" ++ s.fileName, b)]
    ∧ (handleSave s).pdfBytes = s.pdfBytes
    ∧ (handleSave s).pages = s.pages
    ∧ (handleSave s).fileName = s.fileName
    ∧ (handleSave s).loading = s.loading
    ∧ (handleSave s).loadingText = s.loadingText
    ∧ (handleSave s).selectedPageIndex = s.selectedPageIndex
    ∧ (handleSave s).alerts = s.alerts
    ∧ (handleSave s).calls = s.calls := by
  unfold handleSave
  rw [hdoc]
  exact ⟨rfl, rfl, rfl, rfl, rfl, rfl, rfl, rfl, rfl⟩

/-- Witness for C8 at a concrete input: a loaded one-page document named
"doc.pdf" is exported as "edited_doc.pdf" with the current bytes. -/
theorem c8_export_download_no_state_change_witness :
    ({ initState with pdfBytes := some [3], fileName := "doc.pdf" } : AppState).pdfBytes
        = some [3]
    ∧ (handleSave { initState with pdfBytes := some [3], fileName := "doc.pdf" }).downloads
        = [("edited_doc.pdf", [3])]
    ∧ (handleSave { initState with pdfBytes := some [3], fileName := "doc.pdf" }).pdfBytes
        = some [3] := by
  have h := c8_export_download_no_state_change
    { initState with pdfBytes := some [3], fileName := "doc.pdf" } [3] rfl
  exact ⟨rfl, h.1, h.2.1⟩


/-- A loaded two-page example state used by concrete witnesses. -/
def twoPageState : AppState :=
  { initState with pdfBytes := some [4, 5], pages := ["4", "5"], selectedPageIndex := some 1 }

/-- C9: `handleMovePage` validates only the destination index.  For every
loaded document and destination inside the page range, the engine `movePage`
is invoked with exactly the given source and destination, whatever the
source index is (negative or beyond the page count included): no
source-index check precedes the engine call. -/
theorem c9_reorder_ignores_source_index (E : Engine) (s : AppState) (b : Bytes)
    (src dst : Int) (hdoc : s.pdfBytes = some b)
    (h0 : 0 ≤ dst) (hlt : dst < (s.pages.length : Int)) :
    ∃ rest, (handleMovePage E s src dst).calls =
      s.calls ++ (⟨.movePage b src dst, true, "Reordering..."⟩ : CallRecord) :: rest := by
  have hout : ¬(dst < 0 ∨ (s.pages.length : Int) ≤ dst) := by omega
  cases hmv : E.movePage b src dst with
  | none => exact ⟨[], by simp [handleMovePage, hdoc, hout, hmv, logCall]⟩
  | some newBytes =>
    refine ⟨[⟨.getPdfDetails newBytes, true, "Processing PDF..."⟩], ?_⟩
    cases hdet : E.getPdfDetails newBytes <;>
      simp [handleMovePage, hdoc, hout, hmv, loadPdf, logCall, hdet]

/-- Witness for C9 at a concrete input: the engine is invoked with the
out-of-range source index -3 on a loaded two-page document. -/
theorem c9_reorder_ignores_source_index_witness :
    twoPageState.pdfBytes = some [4, 5]
    ∧ (0 : Int) ≤ 1
    ∧ (1 : Int) < (twoPageState.pages.length : Int)
    ∧ ∃ rest,
        (handleMovePage listEngine twoPageState (-3) 1).calls =
        twoPageState.calls
          ++ (⟨.movePage [4, 5] (-3) 1, true, "Reordering..."⟩ : CallRecord) :: rest := by
  refine ⟨rfl, by decide, by decide, ?_⟩
  exact c9_reorder_ignores_source_index listEngine twoPageState [4, 5] (-3) 1 rfl
    (by decide) (by decide)

/-- C10: no mutation touches the selection.  With a document loaded and the
page editor opened on index `i`, every mutation handler (load, merge,
reorder, delete, set-metadata, apply-filters, add-text) leaves
`selectedPageIndex = some i`, and a subsequent apply-filters invokes the
engine at exactly that index against the then-current document; `openEditor`
is the only writer of the selection. -/
theorem c10_mutations_preserve_selection (E : Engine) (s : AppState) (b : Bytes)
    (i : Int) (hdoc : s.pdfBytes = some b) (hsel : s.selectedPageIndex = some i)
    (bytes : Bytes) (fr : Option Bytes) (src dst idx : Int) (m : PdfMetadata)
    (f : PageFilter) (bc : BorderConfig) (tc : TextConfig) :
    (loadPdf E s bytes).selectedPageIndex = some i
    ∧ (handleMerge E s fr).selectedPageIndex = some i
    ∧ (handleMovePage E s src dst).selectedPageIndex = some i
    ∧ (handleDeletePage E s idx).selectedPageIndex = some i
    ∧ (saveMetadata E s m).selectedPageIndex = some i
    ∧ (handleApplyFilters E s f bc).selectedPageIndex = some i
    ∧ (handleAddText E s tc).selectedPageIndex = some i
    ∧ (∃ rest, (handleApplyFilters E s f bc).calls =
        s.calls ++ (⟨.applyFiltersToPage b i f bc, true, "Applying edits..."⟩ : CallRecord)
          :: rest)
    ∧ (openEditor s idx).selectedPageIndex = some idx := by
  refine ⟨?_, ?_, ?_, ?_, ?_, ?_, ?_, ?_, rfl⟩
  · cases hdet : E.getPdfDetails bytes <;> simp [loadPdf, logCall, hdet, hsel]
  · cases fr with
    | none => simp [handleMerge, hdoc, hsel]
    | some mb =>
      cases hmg : E.mergePdfs b mb with
      | none => simp [handleMerge, hdoc, logCall, hmg, hsel]
      | some nb =>
        cases hdet : E.getPdfDetails nb <;>
          simp [handleMerge, hdoc, loadPdf, logCall, hmg, hdet, hsel]
  · by_cases hout : dst < 0 ∨ (s.pages.length : Int) ≤ dst
    · simp [handleMovePage, hdoc, hout, hsel]
    · cases hmv : E.movePage b src dst with
      | none => simp [handleMovePage, hdoc, hout, logCall, hmv, hsel]
      | some nb =>
        cases hdet : E.getPdfDetails nb <;>
          simp [handleMovePage, hdoc, hout, loadPdf, logCall, hmv, hdet, hsel]
  · cases hrm : E.removePage b idx with
    | none =>
      simp [handleDeletePage, runSchedule, stepTask, hdoc, logCall, hrm, hsel]
    | some nb =>
      cases hdet : E.getPdfDetails nb <;>
        simp [handleDeletePage, runSchedule, stepTask, hdoc, logCall, hrm, hdet, hsel]
  · cases hup : E.updateMetadata b m <;> simp [saveMetadata, hdoc, logCall, hup, hsel]
  · cases hap : E.applyFiltersToPage b i f bc with
    | none => simp [handleApplyFilters, hdoc, hsel, logCall, hap]
    | some nb =>
      cases hdet : E.getPdfDetails nb <;>
        simp [handleApplyFilters, hdoc, hsel, loadPdf, logCall, hap, hdet]
  · cases hat : E.addTextToPage b i tc with
    | none => simp [handleAddText, hdoc, hsel, logCall, hat]
    | some nb =>
      cases hdet : E.getPdfDetails nb <;>
        simp [handleAddText, hdoc, hsel, loadPdf, logCall, hat, hdet]
  · cases hap : E.applyFiltersToPage b i f bc with
    | none => exact ⟨[], by simp [handleApplyFilters, hdoc, hsel, logCall, hap]⟩
    | some nb =>
      refine ⟨[⟨.getPdfDetails nb, true, "Processing PDF..."⟩], ?_⟩
      cases hdet : E.getPdfDetails nb <;>
        simp [handleApplyFilters, hdoc, hsel, loadPdf, logCall, hap, hdet]

/-- Witness for C10 at a concrete input: a loaded two-page document with
page 1 selected; a delete of page 0 keeps the selection at 1, and so does a
metadata save. -/
theorem c10_mutations_preserve_selection_witness :
    twoPageState.pdfBytes = some [4, 5]
    ∧ twoPageState.selectedPageIndex = some 1
    ∧ (handleDeletePage listEngine twoPageState 0).selectedPageIndex = some 1
    ∧ (saveMetadata listEngine twoPageState ⟨none, none⟩).selectedPageIndex = some 1 := by
  have h := c10_mutations_preserve_selection listEngine twoPageState [4, 5] 1 rfl rfl
    [4, 5] none 0 0 0 ⟨none, none⟩ ⟨0, 0⟩ ⟨0, ""⟩ ⟨"", 0, 0⟩
  exact ⟨rfl, rfl, h.2.2.2.1, h.2.2.2.2.1⟩

/-- Re-inserting the element extracted at position `i` back at position `i`
restores the original list. -/
theorem insertAt_eraseIdx_self (l : List Nat) (i : Nat) (h : i < l.length) :
    insertAt (l.eraseIdx i) i (l.get ⟨i, h⟩) = l := by
  induction l generalizing i with
  | nil => simp at h
  | cons a t ih =>
    cases i with
    | zero => simp [insertAt, List.eraseIdx]
    | succ n =>
      simp only [List.eraseIdx, insertAt, List.get, List.cons.injEq, true_and]
      exact ih n (by simpa using h)

/-- Moving a page onto itself is the identity on the modelled document. -/
theorem movePageModel_self (doc : Bytes) (i : Int) (h0 : 0 ≤ i)
    (hi : i.toNat < doc.length) :
    movePageModel doc i i = some doc := by
  unfold movePageModel
  rw [dif_pos ⟨h0, hi⟩]
  rw [insertAt_eraseIdx_self doc i.toNat hi]

/-- C6: with the engine `movePage` as modelled from the spec, reordering a
loaded document with `from = to = i` for any `i` inside the page range
leaves the current document byte-for-byte identical (identical page order):
the engine returns the input document and `loadPdf` re-installs it. -/
theorem c6_reorder_self_identity (E : Engine) (s : AppState) (doc : Bytes) (i : Int)
    (hE : E.movePage = movePageModel)
    (hdoc : s.pdfBytes = some doc)
    (hlen : s.pages.length = doc.length)
    (h0 : 0 ≤ i) (hi : i < (s.pages.length : Int)) :
    (handleMovePage E s i i).pdfBytes = some doc := by
  have hout : ¬(i < 0 ∨ (s.pages.length : Int) ≤ i) := by omega
  have hnat : i.toNat < doc.length := by omega
  have hmv : E.movePage doc i i = some doc := by
    rw [hE]; exact movePageModel_self doc i h0 hnat
  cases hdet : E.getPdfDetails doc <;>
    simp [handleMovePage, hdoc, hout, hmv, loadPdf, logCall, hdet]

/-- Witness for C6 at a concrete input: moving page 1 of a loaded two-page
document onto itself leaves the document unchanged. -/
theorem c6_reorder_self_identity_witness :
    listEngine.movePage = movePageModel
    ∧ twoPageState.pdfBytes = some [4, 5]
    ∧ twoPageState.pages.length = ([4, 5] : Bytes).length
    ∧ (0 : Int) ≤ 1
    ∧ (1 : Int) < (twoPageState.pages.length : Int)
    ∧ (handleMovePage listEngine twoPageState 1 1).pdfBytes = some [4, 5] := by
  refine ⟨rfl, rfl, by decide, by decide, by decide, ?_⟩
  exact c6_reorder_self_identity listEngine twoPageState [4, 5] 1 rfl rfl (by decide)
    (by decide) (by decide)

/-- All interleavings of two delete tasks in which both tasks are fired
(run their synchronous prefix, capturing the current document) before
either engine call resolves and installs its result.  `true` steps task 1,
`false` steps task 2; each task contributes three atomic segments.  These
are exactly the schedules in which both deletes operate on the same
current Document: any later firing would capture the document already
replaced by the other delete. -/
def sameSnapshotSchedules : List (List Bool) :=
  [ [true, false, true, true, false, false]
  , [true, false, true, false, true, false]
  , [true, false, true, false, false, true]
  , [true, false, false, true, true, false]
  , [true, false, false, true, false, true]
  , [true, false, false, false, true, true]
  , [false, true, true, true, false, false]
  , [false, true, true, false, true, false]
  , [false, true, true, false, false, true]
  , [false, true, false, true, true, false]
  , [false, true, false, true, false, true]
  , [false, true, false, false, true, true] ]

/-- C3: if two delete operations on the same current Document (both fired
before either completes, hence both capturing the same snapshot `d`) run
under any cooperative interleaving, the final document is `d` with exactly
one of the two pages removed: whichever engine result is installed last
overwrites the other, so exactly one deletion is observably applied.  The
engine delete and thumbnail calls are the ones modelled from the spec. -/
theorem c3_concurrent_deletes_exactly_one (s : AppState) (d : Bytes)
    (i1 i2 : Int) (sched : List Bool)
    (hdoc : s.pdfBytes = some d)
    (h1 : 0 ≤ i1) (h1n : i1.toNat < d.length)
    (h2 : 0 ≤ i2) (h2n : i2.toNat < d.length)
    (hs : sched ∈ sameSnapshotSchedules) :
    (runSchedule listEngine sched ⟨s, .ready i1, .ready i2⟩).app.pdfBytes
        = some (d.eraseIdx i1.toNat)
    ∨ (runSchedule listEngine sched ⟨s, .ready i1, .ready i2⟩).app.pdfBytes
        = some (d.eraseIdx i2.toNat) := by
  have hr1 : removePageModel d i1 = some (d.eraseIdx i1.toNat) := by
    simp [removePageModel, h1, h1n]
  have hr2 : removePageModel d i2 = some (d.eraseIdx i2.toNat) := by
    simp [removePageModel, h2, h2n]
  fin_cases hs <;>
    simp [runSchedule, stepTask, hdoc, hr1, hr2, listEngine, getPdfDetailsModel, logCall]

/-- Witness for C3 at a concrete input: a three-page document with deletes
of pages 0 and 1 fired together; the final document is the original minus
exactly one page. -/
theorem c3_concurrent_deletes_exactly_one_witness :
    ({ initState with pdfBytes := some [0, 1, 2] } : AppState).pdfBytes = some [0, 1, 2]
    ∧ [true, false, true, false, true, false] ∈ sameSnapshotSchedules
    ∧ ((runSchedule listEngine [true, false, true, false, true, false]
          ⟨{ initState with pdfBytes := some [0, 1, 2] }, .ready 0, .ready 1⟩).app.pdfBytes
        = some [1, 2]
      ∨ (runSchedule listEngine [true, false, true, false, true, false]
          ⟨{ initState with pdfBytes := some [0, 1, 2] }, .ready 0, .ready 1⟩).app.pdfBytes
        = some [0, 2]) := by
  refine ⟨rfl, by decide, ?_⟩
  exact c3_concurrent_deletes_exactly_one { initState with pdfBytes := some [0, 1, 2] }
    [0, 1, 2] 0 1 _ rfl (by decide) (by decide) (by decide) (by decide) (by decide)

/-- Formalisation of claim C1 as stated: for every mutating operation, if
the operation (its engine mutation call, or for load the thumbnail call)
fails, then the current document is unchanged, a failure notification is
surfaced (the alert trace grows), and the busy flag is cleared. -/
def C1_claim : Prop :=
  ∀ (E : Engine) (s : AppState),
    (∀ bytes, E.getPdfDetails bytes = none →
      (loadPdf E s bytes).pdfBytes = s.pdfBytes
      ∧ s.alerts.length < (loadPdf E s bytes).alerts.length
      ∧ (loadPdf E s bytes).loading = false) ∧
    (∀ b mb, s.pdfBytes = some b → E.mergePdfs b mb = none →
      (handleMerge E s (some mb)).pdfBytes = s.pdfBytes
      ∧ s.alerts.length < (handleMerge E s (some mb)).alerts.length
      ∧ (handleMerge E s (some mb)).loading = false) ∧
    (∀ b src dst, s.pdfBytes = some b → 0 ≤ dst → dst < (s.pages.length : Int) →
      E.movePage b src dst = none →
      (handleMovePage E s src dst).pdfBytes = s.pdfBytes
      ∧ s.alerts.length < (handleMovePage E s src dst).alerts.length
      ∧ (handleMovePage E s src dst).loading = false) ∧
    (∀ b i, s.pdfBytes = some b → E.removePage b i = none →
      (handleDeletePage E s i).pdfBytes = s.pdfBytes
      ∧ s.alerts.length < (handleDeletePage E s i).alerts.length
      ∧ (handleDeletePage E s i).loading = false) ∧
    (∀ b m, s.pdfBytes = some b → E.updateMetadata b m = none →
      (saveMetadata E s m).pdfBytes = s.pdfBytes
      ∧ s.alerts.length < (saveMetadata E s m).alerts.length
      ∧ (saveMetadata E s m).loading = false) ∧
    (∀ b i f bc, s.pdfBytes = some b → s.selectedPageIndex = some i →
      E.applyFiltersToPage b i f bc = none →
      (handleApplyFilters E s f bc).pdfBytes = s.pdfBytes
      ∧ s.alerts.length < (handleApplyFilters E s f bc).alerts.length
      ∧ (handleApplyFilters E s f bc).loading = false) ∧
    (∀ b i tc, s.pdfBytes = some b → s.selectedPageIndex = some i →
      E.addTextToPage b i tc = none →
      (handleAddText E s tc).pdfBytes = s.pdfBytes
      ∧ s.alerts.length < (handleAddText E s tc).alerts.length
      ∧ (handleAddText E s tc).loading = false)

/-- C1 counterexample: the claim fails at a concrete input.  A delete on a
loaded two-page document whose engine call rejects surfaces no notification
at all: the `catch` block of `handleDeletePage` only logs to the console,
so the alert trace does not grow. -/
theorem c1_counterexample : ¬ C1_claim := by
  intro hcl
  have h := (hcl failEngine twoPageState).2.2.2.1 [4, 5] 0 rfl rfl
  have hx : (handleDeletePage failEngine twoPageState 0).alerts = [] := rfl
  have h2 := h.2.1
  rw [hx] at h2
  simp [twoPageState, initState] at h2

/-- C1 amended: if the engine mutation call of a merge, reorder, delete,
set-metadata, apply-filters or add-text fails, the current document is
unchanged and the busy flag is cleared; merge, set-metadata, apply-filters
and add-text also surface a failure notification, while reorder and delete
failures are logged to the console only (alert trace unchanged).  A load
whose thumbnail call fails surfaces a notification and clears the flag, but
the attempted bytes have already been installed as the current document. -/
theorem c1_amended (E : Engine) (s : AppState) (b : Bytes)
    (hdoc : s.pdfBytes = some b) (i : Int) (hsel : s.selectedPageIndex = some i) :
    (∀ bytes, E.getPdfDetails bytes = none →
      (loadPdf E s bytes).pdfBytes = some bytes
      ∧ s.alerts.length < (loadPdf E s bytes).alerts.length
      ∧ (loadPdf E s bytes).loading = false) ∧
    (∀ mb, E.mergePdfs b mb = none →
      (handleMerge E s (some mb)).pdfBytes = s.pdfBytes
      ∧ s.alerts.length < (handleMerge E s (some mb)).alerts.length
      ∧ (handleMerge E s (some mb)).loading = false) ∧
    (∀ src dst, 0 ≤ dst → dst < (s.pages.length : Int) → E.movePage b src dst = none →
      (handleMovePage E s src dst).pdfBytes = s.pdfBytes
      ∧ (handleMovePage E s src dst).alerts = s.alerts
      ∧ (handleMovePage E s src dst).loading = false) ∧
    (∀ idx, E.removePage b idx = none →
      (handleDeletePage E s idx).pdfBytes = s.pdfBytes
      ∧ (handleDeletePage E s idx).alerts = s.alerts
      ∧ (handleDeletePage E s idx).loading = false) ∧
    (∀ m, E.updateMetadata b m = none →
      (saveMetadata E s m).pdfBytes = s.pdfBytes
      ∧ s.alerts.length < (saveMetadata E s m).alerts.length
      ∧ (saveMetadata E s m).loading = false) ∧
    (∀ f bc, E.applyFiltersToPage b i f bc = none →
      (handleApplyFilters E s f bc).pdfBytes = s.pdfBytes
      ∧ s.alerts.length < (handleApplyFilters E s f bc).alerts.length
      ∧ (handleApplyFilters E s f bc).loading = false) ∧
    (∀ tc, E.addTextToPage b i tc = none →
      (handleAddText E s tc).pdfBytes = s.pdfBytes
      ∧ s.alerts.length < (handleAddText E s tc).alerts.length
      ∧ (handleAddText E s tc).loading = false) := by
  refine ⟨?_, ?_, ?_, ?_, ?_, ?_, ?_⟩
  · intro bytes hdet
    refine ⟨?_, ?_, ?_⟩ <;> simp [loadPdf, logCall, hdet]
  · intro mb hmg
    refine ⟨?_, ?_, ?_⟩ <;> simp [handleMerge, hdoc, logCall, hmg]
  · intro src dst hd0 hdlt hmv
    have hout : ¬(dst < 0 ∨ (s.pages.length : Int) ≤ dst) := by omega
    refine ⟨?_, ?_, ?_⟩ <;> simp [handleMovePage, hdoc, hout, logCall, hmv]
  · intro idx hrm
    refine ⟨?_, ?_, ?_⟩ <;>
      simp [handleDeletePage, runSchedule, stepTask, hdoc, logCall, hrm]
  · intro m hup
    refine ⟨?_, ?_, ?_⟩ <;> simp [saveMetadata, hdoc, logCall, hup]
  · intro f bc hap
    refine ⟨?_, ?_, ?_⟩ <;> simp [handleApplyFilters, hdoc, hsel, logCall, hap]
  · intro tc hat
    refine ⟨?_, ?_, ?_⟩ <;> simp [handleAddText, hdoc, hsel, logCall, hat]

/-- Witness for the amended C1 at a concrete input: with an engine whose
calls all reject, a failing delete leaves the document, surfaces nothing
and clears the flag, while a failing metadata save surfaces an alert. -/
theorem c1_amended_witness :
    twoPageState.pdfBytes = some [4, 5]
    ∧ twoPageState.selectedPageIndex = some 1
    ∧ failEngine.removePage [4, 5] 0 = none
    ∧ failEngine.updateMetadata [4, 5] ⟨none, none⟩ = none
    ∧ ((handleDeletePage failEngine twoPageState 0).pdfBytes = twoPageState.pdfBytes
      ∧ (handleDeletePage failEngine twoPageState 0).alerts = twoPageState.alerts
      ∧ (handleDeletePage failEngine twoPageState 0).loading = false)
    ∧ twoPageState.alerts.length
        < (saveMetadata failEngine twoPageState ⟨none, none⟩).alerts.length := by
  have h := c1_amended failEngine twoPageState [4, 5] rfl 1 rfl
  exact ⟨rfl, rfl, rfl, rfl, h.2.2.2.1 0 rfl, (h.2.2.2.2.1 ⟨none, none⟩ rfl).2.1⟩

/-- An engine whose metadata write turns document `[0]` into document `[1]`,
where `[0]` has one page and `[1]` has two: used to exhibit thumbnail
staleness after `saveMetadata`. -/
def metaEngine : Engine where
  getPdfDetails := fun b => if b = [0] then some ["a"] else some ["b", "c"]
  mergePdfs := fun _ _ => none
  movePage := fun _ _ _ => none
  removePage := fun _ _ => none
  getMetadata := fun _ => none
  updateMetadata := fun _ _ => some [1]
  applyFiltersToPage := fun _ _ _ _ => none
  addTextToPage := fun _ _ _ => none

/-- A state holding document `[0]` with its correct one-thumbnail
projection under `metaEngine`. -/
def metaState : AppState :=
  { initState with pdfBytes := some [0], pages := ["a"] }

/-- Formalisation of claim C2 as stated: starting from a consistent state
(thumbnails are the engine projection of the current document), every fully
successful mutation leaves the state consistent again, so in particular the
thumbnail count equals the new page count and no state pairs an installed
document with thumbnails of a different document. -/
def C2_claim : Prop :=
  ∀ (E : Engine) (s : AppState), consistent E s →
    (∀ bytes th, E.getPdfDetails bytes = some th → consistent E (loadPdf E s bytes)) ∧
    (∀ b mb nb th, s.pdfBytes = some b → E.mergePdfs b mb = some nb →
      E.getPdfDetails nb = some th → consistent E (handleMerge E s (some mb))) ∧
    (∀ b src dst nb th, s.pdfBytes = some b → E.movePage b src dst = some nb →
      E.getPdfDetails nb = some th → consistent E (handleMovePage E s src dst)) ∧
    (∀ b idx nb th, s.pdfBytes = some b → E.removePage b idx = some nb →
      E.getPdfDetails nb = some th → consistent E (handleDeletePage E s idx)) ∧
    (∀ b i f bc nb th, s.pdfBytes = some b → s.selectedPageIndex = some i →
      E.applyFiltersToPage b i f bc = some nb →
      E.getPdfDetails nb = some th → consistent E (handleApplyFilters E s f bc)) ∧
    (∀ b i tc nb th, s.pdfBytes = some b → s.selectedPageIndex = some i →
      E.addTextToPage b i tc = some nb →
      E.getPdfDetails nb = some th → consistent E (handleAddText E s tc)) ∧
    (∀ b m nb, s.pdfBytes = some b → E.updateMetadata b m = some nb →
      consistent E (saveMetadata E s m))

/-- C2 counterexample: the claim fails at a concrete input.  A successful
metadata save on the consistent one-page state installs the new document
without recomputing thumbnails, leaving the old thumbnail sequence paired
with a document whose projection has two pages. -/
theorem c2_counterexample : ¬ C2_claim := by
  intro hcl
  have hcons : consistent metaEngine metaState := by
    intro b hb
    have hb2 : b = [0] := by
      have hb' : some ([0] : Bytes) = some b := hb
      exact (Option.some.inj hb').symm
    subst hb2
    rfl
  have h := (hcl metaEngine metaState hcons).2.2.2.2.2.2 [0] ⟨none, none⟩ [1] rfl rfl
  have hres : (saveMetadata metaEngine metaState ⟨none, none⟩).pdfBytes = some [1] := rfl
  have hled := h [1] hres
  have hp : (saveMetadata metaEngine metaState ⟨none, none⟩).pages = ["a"] := rfl
  rw [hp] at hled
  have hdet : metaEngine.getPdfDetails [1] = some ["b", "c"] := rfl
  rw [hdet] at hled
  simp at hled

/-- C2 amended: after a fully successful load, merge, reorder, delete,
apply-filters or add-text (mutation call and thumbnail call both succeed),
the state is consistent: the thumbnails are the engine projection of the
newly installed document, so the thumbnail count equals the new page count.
A successful set-metadata instead installs the new document while retaining
the previous thumbnail sequence unchanged (no recomputation). -/
theorem c2_amended (E : Engine) (s : AppState) (b : Bytes)
    (hdoc : s.pdfBytes = some b) (i : Int) (hsel : s.selectedPageIndex = some i) :
    (∀ bytes th, E.getPdfDetails bytes = some th → consistent E (loadPdf E s bytes)) ∧
    (∀ mb nb th, E.mergePdfs b mb = some nb → E.getPdfDetails nb = some th →
      consistent E (handleMerge E s (some mb))) ∧
    (∀ src dst nb th, 0 ≤ dst → dst < (s.pages.length : Int) →
      E.movePage b src dst = some nb → E.getPdfDetails nb = some th →
      consistent E (handleMovePage E s src dst)) ∧
    (∀ idx nb th, E.removePage b idx = some nb → E.getPdfDetails nb = some th →
      consistent E (handleDeletePage E s idx)) ∧
    (∀ f bc nb th, E.applyFiltersToPage b i f bc = some nb →
      E.getPdfDetails nb = some th → consistent E (handleApplyFilters E s f bc)) ∧
    (∀ tc nb th, E.addTextToPage b i tc = some nb → E.getPdfDetails nb = some th →
      consistent E (handleAddText E s tc)) ∧
    (∀ m nb, E.updateMetadata b m = some nb →
      (saveMetadata E s m).pdfBytes = some nb ∧ (saveMetadata E s m).pages = s.pages) := by
  refine ⟨?_, ?_, ?_, ?_, ?_, ?_, ?_⟩
  · intro bytes th hdet b' hb'
    have h1 : (loadPdf E s bytes).pdfBytes = some bytes := by simp [loadPdf, logCall, hdet]
    have h2 : (loadPdf E s bytes).pages = th := by simp [loadPdf, logCall, hdet]
    rw [h1] at hb'
    obtain rfl := Option.some.inj hb'
    rw [h2]
    exact hdet
  · intro mb nb th hmg hdet b' hb'
    have h1 : (handleMerge E s (some mb)).pdfBytes = some nb := by
      simp [handleMerge, hdoc, logCall, hmg, loadPdf, hdet]
    have h2 : (handleMerge E s (some mb)).pages = th := by
      simp [handleMerge, hdoc, logCall, hmg, loadPdf, hdet]
    rw [h1] at hb'
    obtain rfl := Option.some.inj hb'
    rw [h2]
    exact hdet
  · intro src dst nb th hd0 hdlt hmv hdet b' hb'
    have hout : ¬(dst < 0 ∨ (s.pages.length : Int) ≤ dst) := by omega
    have h1 : (handleMovePage E s src dst).pdfBytes = some nb := by
      simp [handleMovePage, hdoc, hout, logCall, hmv, loadPdf, hdet]
    have h2 : (handleMovePage E s src dst).pages = th := by
      simp [handleMovePage, hdoc, hout, logCall, hmv, loadPdf, hdet]
    rw [h1] at hb'
    obtain rfl := Option.some.inj hb'
    rw [h2]
    exact hdet
  · intro idx nb th hrm hdet b' hb'
    have h1 : (handleDeletePage E s idx).pdfBytes = some nb := by
      simp [handleDeletePage, runSchedule, stepTask, hdoc, logCall, hrm, hdet]
    have h2 : (handleDeletePage E s idx).pages = th := by
      simp [handleDeletePage, runSchedule, stepTask, hdoc, logCall, hrm, hdet]
    rw [h1] at hb'
    obtain rfl := Option.some.inj hb'
    rw [h2]
    exact hdet
  · intro f bc nb th hap hdet b' hb'
    have h1 : (handleApplyFilters E s f bc).pdfBytes = some nb := by
      simp [handleApplyFilters, hdoc, hsel, logCall, hap, loadPdf, hdet]
    have h2 : (handleApplyFilters E s f bc).pages = th := by
      simp [handleApplyFilters, hdoc, hsel, logCall, hap, loadPdf, hdet]
    rw [h1] at hb'
    obtain rfl := Option.some.inj hb'
    rw [h2]
    exact hdet
  · intro tc nb th hat hdet b' hb'
    have h1 : (handleAddText E s tc).pdfBytes = some nb := by
      simp [handleAddText, hdoc, hsel, logCall, hat, loadPdf, hdet]
    have h2 : (handleAddText E s tc).pages = th := by
      simp [handleAddText, hdoc, hsel, logCall, hat, loadPdf, hdet]
    rw [h1] at hb'
    obtain rfl := Option.some.inj hb'
    rw [h2]
    exact hdet
  · intro m nb hup
    exact ⟨by simp [saveMetadata, hdoc, logCall, hup], by simp [saveMetadata, hdoc, logCall, hup]⟩

/-- Witness for the amended C2 at a concrete input: deleting page 0 of the
loaded two-page document leaves a consistent state, and a metadata save
keeps the thumbnails unchanged while installing the new bytes. -/
theorem c2_amended_witness :
    twoPageState.pdfBytes = some [4, 5]
    ∧ twoPageState.selectedPageIndex = some 1
    ∧ listEngine.removePage [4, 5] 0 = some [5]
    ∧ listEngine.getPdfDetails [5] = some ["5"]
    ∧ consistent listEngine (handleDeletePage listEngine twoPageState 0)
    ∧ listEngine.updateMetadata [4, 5] ⟨none, none⟩ = some [4, 5]
    ∧ (saveMetadata listEngine twoPageState ⟨none, none⟩).pages = twoPageState.pages := by
  have h := c2_amended listEngine twoPageState [4, 5] rfl 1 rfl
  refine ⟨rfl, rfl, by decide, rfl, ?_, rfl, ?_⟩
  · exact h.2.2.2.1 0 [5] ["5"] (by decide) rfl
  · exact (h.2.2.2.2.2.2 ⟨none, none⟩ [4, 5] rfl).2

/-- Formalisation of claim C5 as stated: every mutating operation has a
fixed, nonempty, operation-specific status label such that, from any state
satisfying the operation preconditions, its first engine call is made with
the busy flag set and that label installed as the status text, and the flag
is cleared once the handler settles. -/
def C5_claim : Prop :=
  (∃ label, label ≠ "" ∧ ∀ (E : Engine) (s : AppState) (bytes : Bytes),
    (∃ rest, (loadPdf E s bytes).calls =
      s.calls ++ (⟨.getPdfDetails bytes, true, label⟩ : CallRecord) :: rest)
    ∧ (loadPdf E s bytes).loading = false) ∧
  (∃ label, label ≠ "" ∧ ∀ (E : Engine) (s : AppState) (b mb : Bytes),
    s.pdfBytes = some b →
    (∃ rest, (handleMerge E s (some mb)).calls =
      s.calls ++ (⟨.mergePdfs b mb, true, label⟩ : CallRecord) :: rest)
    ∧ (handleMerge E s (some mb)).loading = false) ∧
  (∃ label, label ≠ "" ∧ ∀ (E : Engine) (s : AppState) (b : Bytes) (src dst : Int),
    s.pdfBytes = some b → 0 ≤ dst → dst < (s.pages.length : Int) →
    (∃ rest, (handleMovePage E s src dst).calls =
      s.calls ++ (⟨.movePage b src dst, true, label⟩ : CallRecord) :: rest)
    ∧ (handleMovePage E s src dst).loading = false) ∧
  (∃ label, label ≠ "" ∧ ∀ (E : Engine) (s : AppState) (b : Bytes) (i : Int),
    s.pdfBytes = some b →
    (∃ rest, (handleDeletePage E s i).calls =
      s.calls ++ (⟨.removePage b i, true, label⟩ : CallRecord) :: rest)
    ∧ (handleDeletePage E s i).loading = false) ∧
  (∃ label, label ≠ "" ∧ ∀ (E : Engine) (s : AppState) (b : Bytes) (m : PdfMetadata),
    s.pdfBytes = some b →
    (∃ rest, (saveMetadata E s m).calls =
      s.calls ++ (⟨.updateMetadata b m, true, label⟩ : CallRecord) :: rest)
    ∧ (saveMetadata E s m).loading = false) ∧
  (∃ label, label ≠ "" ∧ ∀ (E : Engine) (s : AppState) (b : Bytes) (i : Int)
      (f : PageFilter) (bc : BorderConfig),
    s.pdfBytes = some b → s.selectedPageIndex = some i →
    (∃ rest, (handleApplyFilters E s f bc).calls =
      s.calls ++ (⟨.applyFiltersToPage b i f bc, true, label⟩ : CallRecord) :: rest)
    ∧ (handleApplyFilters E s f bc).loading = false) ∧
  (∃ label, label ≠ "" ∧ ∀ (E : Engine) (s : AppState) (b : Bytes) (i : Int)
      (tc : TextConfig),
    s.pdfBytes = some b → s.selectedPageIndex = some i →
    (∃ rest, (handleAddText E s tc).calls =
      s.calls ++ (⟨.addTextToPage b i tc, true, label⟩ : CallRecord) :: rest)
    ∧ (handleAddText E s tc).loading = false)

/-- A loaded state whose status text still carries an arbitrary stale
string, used to exhibit that `saveMetadata` inherits it. -/
def staleTextState (t : String) : AppState :=
  { initState with pdfBytes := some [0], loadingText := t }

/-- C5 counterexample: the claim fails for set-metadata.  `saveMetadata`
sets no status text, so its engine call observes whatever text an earlier
operation left behind: from a state with stale text "A" the call records
"A", from one with "B" it records "B" — no fixed operation label exists. -/
theorem c5_counterexample : ¬ C5_claim := by
  intro hcl
  obtain ⟨label, hne, hall⟩ := hcl.2.2.2.2.1
  have hA := (hall listEngine (staleTextState "A") [0] ⟨none, none⟩ rfl).1
  have hB := (hall listEngine (staleTextState "B") [0] ⟨none, none⟩ rfl).1
  obtain ⟨restA, hresA⟩ := hA
  obtain ⟨restB, hresB⟩ := hB
  have hcA : (saveMetadata listEngine (staleTextState "A") ⟨none, none⟩).calls =
      [⟨.updateMetadata [0] ⟨none, none⟩, true, "A"⟩] := rfl
  have hcB : (saveMetadata listEngine (staleTextState "B") ⟨none, none⟩).calls =
      [⟨.updateMetadata [0] ⟨none, none⟩, true, "B"⟩] := rfl
  rw [hcA] at hresA
  rw [hcB] at hresB
  have h0A : ((staleTextState "A").calls : List CallRecord) = [] := rfl
  have h0B : ((staleTextState "B").calls : List CallRecord) = [] := rfl
  rw [h0A, List.nil_append] at hresA
  rw [h0B, List.nil_append] at hresB
  have h1A := (List.cons.injEq _ _ _ _).mp hresA
  have h1B := (List.cons.injEq _ _ _ _).mp hresB
  have h2A : "A" = label := by
    have := congrArg CallRecord.loadingTextAtCall h1A.1
    simpa using this
  have h2B : "B" = label := by
    have := congrArg CallRecord.loadingTextAtCall h1B.1
    simpa using this
  rw [← h2A] at h2B
  exact absurd h2B (by decide)

/-- C5 amended: load, merge, reorder, delete, apply-filters and add-text
each set the busy flag together with their operation-specific status label
before their first engine call and the flag is cleared once the handler
settles; set-metadata sets the busy flag before its engine call and clears
it afterwards, but installs no status text of its own — the call observes
whatever `loadingText` the previous operation left behind. -/
theorem c5_amended (E : Engine) (s : AppState) (b : Bytes)
    (hdoc : s.pdfBytes = some b) (i : Int) (hsel : s.selectedPageIndex = some i) :
    (∀ bytes, (∃ rest, (loadPdf E s bytes).calls =
        s.calls ++ (⟨.getPdfDetails bytes, true, "Processing PDF..."⟩ : CallRecord) :: rest)
      ∧ (loadPdf E s bytes).loading = false) ∧
    (∀ mb, (∃ rest, (handleMerge E s (some mb)).calls =
        s.calls ++ (⟨.mergePdfs b mb, true, "Merging PDFs..."⟩ : CallRecord) :: rest)
      ∧ (handleMerge E s (some mb)).loading = false) ∧
    (∀ src dst, 0 ≤ dst → dst < (s.pages.length : Int) →
      (∃ rest, (handleMovePage E s src dst).calls =
        s.calls ++ (⟨.movePage b src dst, true, "Reordering..."⟩ : CallRecord) :: rest)
      ∧ (handleMovePage E s src dst).loading = false) ∧
    (∀ idx, (∃ rest, (handleDeletePage E s idx).calls =
        s.calls ++ (⟨.removePage b idx, true, "Deleting page..."⟩ : CallRecord) :: rest)
      ∧ (handleDeletePage E s idx).loading = false) ∧
    (∀ m, (∃ rest, (saveMetadata E s m).calls =
        s.calls ++ (⟨.updateMetadata b m, true, s.loadingText⟩ : CallRecord) :: rest)
      ∧ (saveMetadata E s m).loading = false) ∧
    (∀ f bc, (∃ rest, (handleApplyFilters E s f bc).calls =
        s.calls ++ (⟨.applyFiltersToPage b i f bc, true, "Applying edits..."⟩ : CallRecord)
          :: rest)
      ∧ (handleApplyFilters E s f bc).loading = false) ∧
    (∀ tc, (∃ rest, (handleAddText E s tc).calls =
        s.calls ++ (⟨.addTextToPage b i tc, true, "Adding text..."⟩ : CallRecord) :: rest)
      ∧ (handleAddText E s tc).loading = false) := by
  refine ⟨?_, ?_, ?_, ?_, ?_, ?_, ?_⟩
  · intro bytes
    cases hdet : E.getPdfDetails bytes with
    | none => exact ⟨⟨[], by simp [loadPdf, logCall, hdet]⟩, by simp [loadPdf, logCall, hdet]⟩
    | some th => exact ⟨⟨[], by simp [loadPdf, logCall, hdet]⟩, by simp [loadPdf, logCall, hdet]⟩
  · intro mb
    cases hmg : E.mergePdfs b mb with
    | none =>
      exact ⟨⟨[], by simp [handleMerge, hdoc, logCall, hmg]⟩,
        by simp [handleMerge, hdoc, logCall, hmg]⟩
    | some nb =>
      refine ⟨⟨[⟨.getPdfDetails nb, true, "Processing PDF..."⟩], ?_⟩, ?_⟩ <;>
        cases hdet : E.getPdfDetails nb <;>
          simp [handleMerge, hdoc, logCall, hmg, loadPdf, hdet]
  · intro src dst hd0 hdlt
    have hout : ¬(dst < 0 ∨ (s.pages.length : Int) ≤ dst) := by omega
    cases hmv : E.movePage b src dst with
    | none =>
      exact ⟨⟨[], by simp [handleMovePage, hdoc, hout, logCall, hmv]⟩,
        by simp [handleMovePage, hdoc, hout, logCall, hmv]⟩
    | some nb =>
      refine ⟨⟨[⟨.getPdfDetails nb, true, "Processing PDF..."⟩], ?_⟩, ?_⟩ <;>
        cases hdet : E.getPdfDetails nb <;>
          simp [handleMovePage, hdoc, hout, logCall, hmv, loadPdf, hdet]
  · intro idx
    cases hrm : E.removePage b idx with
    | none =>
      exact ⟨⟨[], by simp [handleDeletePage, runSchedule, stepTask, hdoc, logCall, hrm]⟩,
        by simp [handleDeletePage, runSchedule, stepTask, hdoc, logCall, hrm]⟩
    | some nb =>
      refine ⟨⟨[⟨.getPdfDetails nb, true, "Processing PDF..."⟩], ?_⟩, ?_⟩ <;>
        cases hdet : E.getPdfDetails nb <;>
          simp [handleDeletePage, runSchedule, stepTask, hdoc, logCall, hrm, hdet]
  · intro m
    cases hup : E.updateMetadata b m with
    | none =>
      exact ⟨⟨[], by simp [saveMetadata, hdoc, logCall, hup]⟩,
        by simp [saveMetadata, hdoc, logCall, hup]⟩
    | some nb =>
      exact ⟨⟨[], by simp [saveMetadata, hdoc, logCall, hup]⟩,
        by simp [saveMetadata, hdoc, logCall, hup]⟩
  · intro f bc
    cases hap : E.applyFiltersToPage b i f bc with
    | none =>
      exact ⟨⟨[], by simp [handleApplyFilters, hdoc, hsel, logCall, hap]⟩,
        by simp [handleApplyFilters, hdoc, hsel, logCall, hap]⟩
    | some nb =>
      refine ⟨⟨[⟨.getPdfDetails nb, true, "Processing PDF..."⟩], ?_⟩, ?_⟩ <;>
        cases hdet : E.getPdfDetails nb <;>
          simp [handleApplyFilters, hdoc, hsel, logCall, hap, loadPdf, hdet]
  · intro tc
    cases hat : E.addTextToPage b i tc with
    | none =>
      exact ⟨⟨[], by simp [handleAddText, hdoc, hsel, logCall, hat]⟩,
        by simp [handleAddText, hdoc, hsel, logCall, hat]⟩
    | some nb =>
      refine ⟨⟨[⟨.getPdfDetails nb, true, "Processing PDF..."⟩], ?_⟩, ?_⟩ <;>
        cases hdet : E.getPdfDetails nb <;>
          simp [handleAddText, hdoc, hsel, logCall, hat, loadPdf, hdet]

/-- Witness for the amended C5 at a concrete input: on the loaded two-page
document, a delete records its engine call under the label
"Deleting page..." with the flag set and ends with the flag cleared, while
a metadata save records its call under the inherited (here empty) status
text. -/
theorem c5_amended_witness :
    twoPageState.pdfBytes = some [4, 5]
    ∧ twoPageState.selectedPageIndex = some 1
    ∧ ((∃ rest, (handleDeletePage listEngine twoPageState 0).calls =
        twoPageState.calls
          ++ (⟨.removePage [4, 5] 0, true, "Deleting page..."⟩ : CallRecord) :: rest)
      ∧ (handleDeletePage listEngine twoPageState 0).loading = false)
    ∧ ((∃ rest, (saveMetadata listEngine twoPageState ⟨none, none⟩).calls =
        twoPageState.calls
          ++ (⟨.updateMetadata [4, 5] ⟨none, none⟩, true, twoPageState.loadingText⟩
            : CallRecord) :: rest)
      ∧ (saveMetadata listEngine twoPageState ⟨none, none⟩).loading = false) := by
  have h := c5_amended listEngine twoPageState [4, 5] rfl 1 rfl
  exact ⟨rfl, rfl, h.2.2.2.1 0, h.2.2.2.2.1 ⟨none, none⟩⟩
